import Mathlib

/-!
# Verification development for `init/init_rova.cpp`

A shallow embedding of the vendor-init hook of the Xiaomi "rova" device tree
(Redmi 4A "rolex" / Redmi 5A "riva") and proofs about its property-setting
routines.

Modelling conventions.

* A `std::string` / `char const[]` is a Lean `String`; each `Char` stands for one
  C++ `char`.  A `char const[]` argument denotes the characters up to (not
  including) the first NUL, which is what `strlen` measures.
* The system property store (bionic, outside this repository) is a finite map
  from names to values, `PropStore`.  `__system_property_find` is lookup,
  `__system_property_update` overwrites the value of an existing entry and
  `__system_property_add` inserts a new entry.
* The facts read from the running system (two files, the boot-device set and
  `sysinfo().totalram`) are collected in `Env`.
-/

namespace InitRova

/-! ## Strings -/

/-- The NUL character terminating a C string. -/
def NUL : Char := Char.ofNat 0

/-- Result of `strlen`: number of characters before the first NUL. -/
def strlen (s : String) : Nat :=
  (s.data.takeWhile (fun c => c != NUL)).length

/-- The C-string view of a `std::string` buffer (`c_str()` read up to `strlen`). -/
def c_str (s : String) : String :=
  ⟨s.data.take (strlen s)⟩

/-- Model of `std::string::pop_back` (only called on non-empty strings). -/
def pop_back (s : String) : String :=
  ⟨s.data.dropLast⟩

/-- Model of `std::string::substr(pos)`: the suffix starting at `pos`. -/
def substr (s : String) (pos : Nat) : String :=
  ⟨s.data.drop pos⟩

/-- Does `pat` occur in `l` at position 0? -/
def startsWith : List Char → List Char → Bool
  | [], _ => true
  | _ :: _, [] => false
  | p :: ps, c :: cs => if p = c then startsWith ps cs else false

/-- Model of `std::string::rfind(pat)` on character lists: the greatest
position at which `pat` occurs, `none` standing for `npos`. -/
def rfindChars (pat : List Char) : List Char → Option Nat
  | [] => if startsWith pat [] then some 0 else none
  | c :: cs =>
    match rfindChars pat cs with
    | some i => some (i + 1)
    | none => if startsWith pat (c :: cs) then some 0 else none

/-- Model of `line.rfind(pat)`. -/
def rfind (line : String) (pat : String) : Option Nat :=
  rfindChars pat.data line.data

/-- The lines delivered by successive successful calls of `std::getline` on a
stream holding `rest`, where `cur` holds (reversed) the characters of the line
being read.  A line ends at `'\n'` (which is dropped) or at end of input; at
end of input with no character extracted `getline` fails. -/
def getlinesAux : List Char → List Char → List String
  | cur, [] => if cur = [] then [] else [⟨cur.reverse⟩]
  | cur, c :: rest =>
    if c = '\n' then ⟨cur.reverse⟩ :: getlinesAux [] rest
    else getlinesAux (c :: cur) rest

/-- All lines that the loop `while (std::getline(fp, line))` would see. -/
def getlines (content : String) : List String :=
  getlinesAux [] content.data

/-! ## The property store -/

/-- The system property store: property name ↦ value, `none` when absent. -/
abbrev PropStore := String → Option String

/-- Model of `__system_property_find`. -/
def system_property_find (s : PropStore) (name : String) : Option String :=
  s name

/-- Model of `__system_property_update` on the entry found for `name`. -/
def system_property_update (s : PropStore) (name value : String) : PropStore :=
  fun q => if q = name then some value else s q

/-- Model of `__system_property_add`. -/
def system_property_add (s : PropStore) (name value : String) : PropStore :=
  fun q => if q = name then some value else s q

/-- Embedding of `property_override(prop, value, add)`. -/
def property_override (prop value : String) (add : Bool) (s : PropStore) : PropStore :=
  match system_property_find s (c_str prop) with
  | some _ => system_property_update s (c_str prop) (c_str value)
  | none =>
    if add then system_property_add s (c_str prop) (c_str value)
    else s

/-- The two-argument call `property_override(prop, value)`: the declaration
gives `add` the default `true`. -/
def property_override_default (prop value : String) (s : PropStore) : PropStore :=
  property_override prop value true s

/-- The table `ro_props_default_source_order`. -/
def ro_props_default_source_order : List String :=
  ["odm.", "product.", "system.", "system_ext.", "vendor.", ""]

/-- Embedding of `set_ro_build_prop(prop, value, product)`. -/
def set_ro_build_prop (prop value : String) (product : Bool) (s : PropStore) : PropStore :=
  ro_props_default_source_order.foldl
    (fun st source =>
      let prop_name :=
        if product then "ro.product." ++ source ++ prop
        else "ro." ++ source ++ "build." ++ prop
      property_override (c_str prop_name) (c_str value) true st)
    s

/-- The call `set_ro_build_prop(prop, value)`: `product` defaults to `false`. -/
def set_ro_build_prop_default (prop value : String) (s : PropStore) : PropStore :=
  set_ro_build_prop prop value false s

/-- Record type `variant_info_t`. -/
structure variant_info where
  brand : String
  device : String
  marketname : String
  model : String
  build_description : String
  build_fingerprint : String

/-- The constant `rolex_info`. -/
def rolex_info : variant_info where
  brand := "Xiaomi"
  device := "rolex"
  marketname := ""
  model := "Redmi 4A"
  build_description := "rolex-user 7.1.2 N2G47H V10.2.3.0.NCCMIXM release-keys"
  build_fingerprint := "Xiaomi/rolex/rolex:7.1.2/N2G47H/V10.2.3.0.NCCMIXM:user/release-keys"

/-- The constant `riva_info`. -/
def riva_info : variant_info where
  brand := "Xiaomi"
  device := "riva"
  marketname := ""
  model := "Redmi 5A"
  build_description := "riva-user 7.1.2 N2G47H V10.1.1.0.NCKMIFI release-keys"
  build_fingerprint := "Xiaomi/riva/riva:7.1.2/N2G47H/V10.1.1.0.NCKMIFI:user/release-keys"

/-- Embedding of `set_variant_props(variant)`. -/
def set_variant_props (variant : variant_info) (s : PropStore) : PropStore :=
  let s := set_ro_build_prop "brand" variant.brand true s
  let s := set_ro_build_prop "device" variant.device true s
  let s := set_ro_build_prop "marketname" variant.marketname true s
  let s := set_ro_build_prop "model" variant.model true s
  let s := set_ro_build_prop_default "fingerprint" variant.build_fingerprint s
  let s := property_override_default "ro.bootimage.build.fingerprint"
    (c_str variant.build_fingerprint) s
  property_override_default "ro.build.description" (c_str variant.build_description) s

/-! ## The environment -/

/-- What the routines read from the running system. -/
structure Env where
  /-- Content of `/sys/xiaomi-msm8937-mach/codename`; `none` when it cannot be read. -/
  codename_file : Option String
  /-- The elements of `android::fs_mgr::GetBootDevices()` in iteration order of
  the `std::set`, i.e. in strictly ascending string order. -/
  boot_devices : List String
  /-- Content of `/sys/devices/soc0/images`; `none` when the stream fails to open. -/
  images_file : Option String
  /-- The field `totalram` filled in by `sysinfo`. -/
  totalram : Nat

/-- Model of `android::base::ReadFileToString`: the output string is cleared
first and stays empty when the file cannot be read. -/
def ReadFileToString (file : Option String) : String :=
  file.getD ""

/-- Embedding of `determine_device()`. -/
def determine_device (codename_file : Option String) (s : PropStore) : PropStore :=
  let codename := ReadFileToString codename_file
  if codename = "" then s
  else
    let codename := pop_back codename
    if codename = "rolex" then
      let s := set_variant_props rolex_info s
      let s := property_override_default "vendor.usb.product_string" "Xiaomi Redmi 4A" s
      property_override_default "bluetooth.device.default_name" "Xiaomi Redmi 4A" s
    else if codename = "riva" then
      let s := set_variant_props riva_info s
      let s := property_override_default "vendor.usb.product_string" "Xiaomi Redmi 5A" s
      property_override_default "bluetooth.device.default_name" "Xiaomi Redmi 5A" s
    else s

/-- Embedding of `enable_gatekeeper_uid_offset()`.  Dereferencing `begin()` of
an empty set has no defined result: `none`. -/
def enable_gatekeeper_uid_offset (boot_devices : List String) (s : PropStore) :
    Option PropStore :=
  match boot_devices with
  | [] => none
  | boot_device :: _ =>
    if boot_device = "soc/7864900.sdhci" then
      some (property_override_default "ro.gsid.image_running" "1" s)
    else some s

/-- Embedding of `set_avoid_gfxaccel_config()`. -/
def set_avoid_gfxaccel_config (totalram : Nat) (s : PropStore) : PropStore :=
  if totalram ≤ 3072 * 1024 * 1024 then
    property_override_default "ro.config.avoid_gfx_accel" "true" s
  else s

/-- Embedding of `force_adb_root()` (compiled only with `FORCE_ADB_ROOT`). -/
def force_adb_root (s : PropStore) : PropStore :=
  let s := property_override_default "ro.secure" "0" s
  let s := property_override_default "ro.adb.secure" "0" s
  let s := property_override_default "ro.debuggable" "1" s
  property_override_default "persist.sys.usb.config" "adb" s

/-- The six strings chosen by `set_dalvik_heap_size`. -/
structure HeapConfig where
  heapstartsize : String
  heapgrowthlimit : String
  heapsize : String
  heaptargetutilization : String
  heapminfree : String
  heapmaxfree : String
deriving DecidableEq

/-- The `if`/`else if` chain of `set_dalvik_heap_size()` assigning the local
variables from `sys.totalram`. -/
def dalvik_heap_config (totalram : Nat) : HeapConfig :=
  if totalram > 5072 * 1024 * 1024 then
    { heapstartsize := "16m", heapgrowthlimit := "256m", heapsize := "512m",
      heaptargetutilization := "0.5", heapminfree := "8m", heapmaxfree := "32m" }
  else if totalram > 3072 * 1024 * 1024 then
    { heapstartsize := "8m", heapgrowthlimit := "192m", heapsize := "512m",
      heaptargetutilization := "0.6", heapminfree := "8m", heapmaxfree := "16m" }
  else if totalram > 1024 * 1024 * 1024 then
    { heapstartsize := "8m", heapgrowthlimit := "128m", heapsize := "256m",
      heaptargetutilization := "0.75", heapminfree := "512k", heapmaxfree := "8m" }
  else
    { heapstartsize := "8m", heapgrowthlimit := "96m", heapsize := "256m",
      heaptargetutilization := "0.75", heapminfree := "512k", heapmaxfree := "8m" }

/-- Embedding of `set_dalvik_heap_size()`. -/
def set_dalvik_heap_size (totalram : Nat) (s : PropStore) : PropStore :=
  let cfg := dalvik_heap_config totalram
  let s := property_override_default "dalvik.vm.heapstartsize" cfg.heapstartsize s
  let s := property_override_default "dalvik.vm.heapgrowthlimit" cfg.heapgrowthlimit s
  let s := property_override_default "dalvik.vm.heapsize" cfg.heapsize s
  let s := property_override_default "dalvik.vm.heaptargetutilization"
    cfg.heaptargetutilization s
  let s := property_override_default "dalvik.vm.heapminfree" cfg.heapminfree s
  property_override_default "dalvik.vm.heapmaxfree" cfg.heapmaxfree s

/-- The `while (std::getline(fp, line))` loop of `set_bootloader_prop()`. -/
def bootloader_loop : List String → PropStore → PropStore
  | [], s => s
  | line :: rest, s =>
    match rfind line "BOOT." with
    | some found => property_override_default "ro.bootloader" (c_str (substr line found)) s
    | none => bootloader_loop rest s

/-- Embedding of `set_bootloader_prop()`. -/
def set_bootloader_prop (images_file : Option String) (s : PropStore) : PropStore :=
  match images_file with
  | none => s
  | some content => bootloader_loop (getlines content) s

/-- Embedding of `vendor_load_properties()`; `FORCE_ADB_ROOT` tells whether the
build defines that macro. -/
def vendor_load_properties (FORCE_ADB_ROOT : Bool) (env : Env) (s : PropStore) :
    Option PropStore :=
  let s := determine_device env.codename_file s
  match enable_gatekeeper_uid_offset env.boot_devices s with
  | none => none
  | some s =>
    let s := set_bootloader_prop env.images_file s
    let s := set_dalvik_heap_size env.totalram s
    let s := set_avoid_gfxaccel_config env.totalram s
    some (if FORCE_ADB_ROOT then force_adb_root s else s)

/-- The store with no property at all. -/
def emptyStore : PropStore := fun _ => none

/-! ## Auxiliary notions used in the statements -/

/-- Embedding of `operator<` on `std::string` (lexicographic comparison of the
character codes), the order in which a `std::set<std::string>` iterates. -/
def string_lt : List Char → List Char → Bool
  | _, [] => false
  | [], _ :: _ => true
  | a :: as, b :: bs =>
    if a.toNat < b.toNat then true
    else if a.toNat = b.toNat then string_lt as bs
    else false

/-- A sequence of property writes applied in order. -/
def applyWrites (ws : List (String × String)) (s : PropStore) : PropStore :=
  ws.foldl (fun st w => system_property_update st w.1 w.2) s

/-- The value last written to `q` by a sequence of writes, if any. -/
def lastWrite (ws : List (String × String)) (q : String) : Option String :=
  ws.foldl (fun r w => if q = w.1 then some w.2 else r) none

/-- The writes issued by `set_ro_build_prop(prop, value, product)`. -/
def ro_build_writes (prop value : String) (product : Bool) : List (String × String) :=
  ro_props_default_source_order.map (fun source =>
    (c_str (c_str (if product then "ro.product." ++ source ++ prop
        else "ro." ++ source ++ "build." ++ prop)),
      c_str (c_str value)))

/-- The writes issued by `set_variant_props(variant)`. -/
def variant_writes (variant : variant_info) : List (String × String) :=
  ro_build_writes "brand" variant.brand true
    ++ ro_build_writes "device" variant.device true
    ++ ro_build_writes "marketname" variant.marketname true
    ++ ro_build_writes "model" variant.model true
    ++ ro_build_writes "fingerprint" variant.build_fingerprint false
    ++ [(c_str "ro.bootimage.build.fingerprint", c_str (c_str variant.build_fingerprint))]
    ++ [(c_str "ro.build.description", c_str (c_str variant.build_description))]

/-- The writes issued by a branch of `determine_device()` for `variant`. -/
def device_writes (variant : variant_info) (name : String) : List (String × String) :=
  variant_writes variant
    ++ [(c_str "vendor.usb.product_string", c_str name)]
    ++ [(c_str "bluetooth.device.default_name", c_str name)]

/-- The writes issued by `set_dalvik_heap_size()` once the strings are chosen. -/
def dalvik_writes (cfg : HeapConfig) : List (String × String) :=
  [(c_str "dalvik.vm.heapstartsize", c_str cfg.heapstartsize),
   (c_str "dalvik.vm.heapgrowthlimit", c_str cfg.heapgrowthlimit),
   (c_str "dalvik.vm.heapsize", c_str cfg.heapsize),
   (c_str "dalvik.vm.heaptargetutilization", c_str cfg.heaptargetutilization),
   (c_str "dalvik.vm.heapminfree", c_str cfg.heapminfree),
   (c_str "dalvik.vm.heapmaxfree", c_str cfg.heapmaxfree)]

/-- The store maps every property that identifies the variant to the data of
`variant`, and the two product-name properties to `name`. -/
def VariantPropsSet (variant : variant_info) (name : String) (s : PropStore) : Prop :=
  (∀ src ∈ ["odm.", "product.", "system.", "system_ext.", "vendor.", ""],
    s ("ro.product." ++ src ++ "brand") = some variant.brand ∧
    s ("ro.product." ++ src ++ "device") = some variant.device ∧
    s ("ro.product." ++ src ++ "marketname") = some variant.marketname ∧
    s ("ro.product." ++ src ++ "model") = some variant.model ∧
    s ("ro." ++ src ++ "build.fingerprint") = some variant.build_fingerprint) ∧
  s "ro.bootimage.build.fingerprint" = some variant.build_fingerprint ∧
  s "ro.build.description" = some variant.build_description ∧
  s "vendor.usb.product_string" = some name ∧
  s "bluetooth.device.default_name" = some name

/-- The six Dalvik heap properties are present in the store with the values of `cfg`. -/
def HeapPropsAre (s : PropStore) (cfg : HeapConfig) : Prop :=
  s "dalvik.vm.heapstartsize" = some cfg.heapstartsize ∧
  s "dalvik.vm.heapgrowthlimit" = some cfg.heapgrowthlimit ∧
  s "dalvik.vm.heapsize" = some cfg.heapsize ∧
  s "dalvik.vm.heaptargetutilization" = some cfg.heaptargetutilization ∧
  s "dalvik.vm.heapminfree" = some cfg.heapminfree ∧
  s "dalvik.vm.heapmaxfree" = some cfg.heapmaxfree

/-- The names `determine_device()` may write. -/
def device_names : List String :=
  (device_writes rolex_info "").map Prod.fst

/-- The names `set_dalvik_heap_size()` writes. -/
def dalvik_names : List String :=
  ["dalvik.vm.heapstartsize", "dalvik.vm.heapgrowthlimit", "dalvik.vm.heapsize",
   "dalvik.vm.heaptargetutilization", "dalvik.vm.heapminfree", "dalvik.vm.heapmaxfree"]

/-- The names `force_adb_root()` writes. -/
def adb_names : List String :=
  ["ro.secure", "ro.adb.secure", "ro.debuggable", "persist.sys.usb.config"]

/-- The property names that `vendor_load_properties()` is said to be able to
change in a build without `FORCE_ADB_ROOT`: 24 product names and 6 fingerprint
names over the six sources, then 13 single names. -/
def written_names : List String :=
  (["odm.", "product.", "system.", "system_ext.", "vendor.", ""].flatMap (fun src =>
    ["ro.product." ++ src ++ "brand", "ro.product." ++ src ++ "device",
     "ro.product." ++ src ++ "marketname", "ro.product." ++ src ++ "model",
     "ro." ++ src ++ "build.fingerprint"]))
  ++ ["ro.bootimage.build.fingerprint", "ro.build.description",
      "vendor.usb.product_string", "bluetooth.device.default_name",
      "ro.gsid.image_running", "ro.bootloader", "ro.config.avoid_gfx_accel",
      "dalvik.vm.heapstartsize", "dalvik.vm.heapgrowthlimit", "dalvik.vm.heapsize",
      "dalvik.vm.heaptargetutilization", "dalvik.vm.heapminfree", "dalvik.vm.heapmaxfree"]

/-- Reading of a size string as a byte count: decimal digits followed by an
optional suffix `k` (1024) or `m` (1024 * 1024). -/
def sizeBytes (v : String) : Option Nat :=
  let digits := v.data.takeWhile Char.isDigit
  let n := digits.foldl (fun acc c => 10 * acc + (c.toNat - '0'.toNat)) 0
  if digits = [] then none
  else
    match v.data.dropWhile Char.isDigit with
    | [] => some n
    | ['k'] => some (n * 1024)
    | ['m'] => some (n * 1024 * 1024)
    | _ => none

/-- The byte count held by property `name` of the store, when it is present
and reads as a size. -/
def heapBytes (s : PropStore) (name : String) : Option Nat :=
  (s name).bind sizeBytes

/-- Both sizes are defined and the first is at most the second. -/
def sizeLe (a b : Option Nat) : Bool :=
  match a, b with
  | some x, some y => decide (x ≤ y)
  | _, _ => false

/-- The pattern `pat` occurs in `line` starting at position `i`. -/
def occursAt (pat line : List Char) (i : Nat) : Prop :=
  ∃ pre suf, line = pre ++ pat ++ suf ∧ pre.length = i

/-- The line contains `pat` as a substring. -/
def containsSub (line pat : String) : Prop :=
  ∃ i, occursAt pat.data line.data i

/-- Position `i` is the last occurrence of `pat` in `line`. -/
def lastOccurrence (line pat : String) (i : Nat) : Prop :=
  occursAt pat.data line.data i ∧ ∀ j, occursAt pat.data line.data j → j ≤ i

/-- A text with a newline appended unless it is empty or already ends in one. -/
def terminated (l : List Char) : List Char :=
  if l = [] ∨ l.getLast? = some '\n' then l else l ++ ['\n']

/-! ## Basic facts about the store operations -/

theorem property_override_true (prop value : String) (s : PropStore) :
    property_override prop value true s
      = system_property_update s (c_str prop) (c_str value) := by
  unfold property_override system_property_find
  split <;> rfl

theorem property_override_default_eq (prop value : String) (s : PropStore) :
    property_override_default prop value s
      = applyWrites [(c_str prop, c_str value)] s := by
  unfold property_override_default
  rw [property_override_true]
  rfl

theorem applyWrites_append (ws₁ ws₂ : List (String × String)) (s : PropStore) :
    applyWrites ws₂ (applyWrites ws₁ s) = applyWrites (ws₁ ++ ws₂) s := by
  simp [applyWrites, List.foldl_append]

theorem applyWrites_apply (ws : List (String × String)) (s : PropStore) (q : String) :
    applyWrites ws s q = (lastWrite ws q).orElse (fun _ => s q) := by
  have key : ∀ (ws : List (String × String)) (st : PropStore) (r : Option String),
      st q = r.orElse (fun _ => s q) →
      ws.foldl (fun st w => system_property_update st w.1 w.2) st q
        = (ws.foldl (fun r w => if q = w.1 then some w.2 else r) r).orElse
            (fun _ => s q) := by
    intro ws
    induction ws with
    | nil => intro st r h; simpa using h
    | cons w ws ih =>
      intro st r h
      simp only [List.foldl_cons]
      apply ih
      by_cases hq : q = w.1
      · simp [system_property_update, hq]
      · simp [system_property_update, hq, h]
  exact key ws s none (by simp)

theorem applyWrites_of_lastWrite {ws : List (String × String)} {q v : String}
    (s : PropStore) (h : lastWrite ws q = some v) : applyWrites ws s q = some v := by
  rw [applyWrites_apply, h]; rfl

theorem lastWrite_none {ws : List (String × String)} {q : String}
    (h : ∀ w ∈ ws, q ≠ w.1) : lastWrite ws q = none := by
  have key : ∀ (ws : List (String × String)) (r : Option String),
      (∀ w ∈ ws, q ≠ w.1) →
      ws.foldl (fun r w => if q = w.1 then some w.2 else r) r = r := by
    intro ws
    induction ws with
    | nil => intro r _; rfl
    | cons w ws ih =>
      intro r h
      simp only [List.foldl_cons]
      rw [if_neg (h w (List.mem_cons_self _ _))]
      exact ih r (fun w' hw' => h w' (List.mem_cons_of_mem _ hw'))
  exact key ws none h

theorem applyWrites_frame {ws : List (String × String)} {q : String} (s : PropStore)
    (h : ∀ w ∈ ws, q ≠ w.1) : applyWrites ws s q = s q := by
  rw [applyWrites_apply, lastWrite_none h]; rfl

/-- Frame of a write sequence, by the list of names it writes. -/
theorem applyWrites_frame_names {ws : List (String × String)} {names allowed : List String}
    {q : String} (s : PropStore) (hn : ws.map Prod.fst = names)
    (hsub : ∀ n ∈ names, n ∈ allowed) (hq : q ∉ allowed) : applyWrites ws s q = s q := by
  apply applyWrites_frame
  intro w hw heq
  apply hq
  apply hsub
  rw [← hn, heq]
  exact List.mem_map_of_mem _ hw

/-! ## The routines as write sequences -/

theorem set_ro_build_prop_eq (prop value : String) (product : Bool) (s : PropStore) :
    set_ro_build_prop prop value product s
      = applyWrites (ro_build_writes prop value product) s := by
  unfold set_ro_build_prop ro_build_writes applyWrites
  generalize ro_props_default_source_order = l
  induction l generalizing s with
  | nil => rfl
  | cons a l ih =>
    simp only [List.foldl_cons, List.map_cons]
    rw [ih, property_override_true]

theorem set_variant_props_eq (variant : variant_info) (s : PropStore) :
    set_variant_props variant s = applyWrites (variant_writes variant) s := by
  simp only [set_variant_props, set_ro_build_prop_default, set_ro_build_prop_eq,
    property_override_default_eq, applyWrites_append, variant_writes]

theorem determine_device_rolex (c : String) (s : PropStore) (h : pop_back c = "rolex") :
    determine_device (some c) s = applyWrites (device_writes rolex_info "Xiaomi Redmi 4A") s := by
  have hc : c ≠ "" := by
    intro h0; rw [h0] at h; revert h; decide
  simp only [determine_device, ReadFileToString, Option.getD_some, if_neg hc, h, if_true,
    set_variant_props_eq, property_override_default_eq, applyWrites_append, device_writes]

theorem determine_device_riva (c : String) (s : PropStore) (h : pop_back c = "riva") :
    determine_device (some c) s = applyWrites (device_writes riva_info "Xiaomi Redmi 5A") s := by
  have hc : c ≠ "" := by
    intro h0; rw [h0] at h; revert h; decide
  have hr : ¬ ("riva" = "rolex") := by decide
  simp only [determine_device, ReadFileToString, Option.getD_some, if_neg hc, h, if_neg hr,
    if_true, set_variant_props_eq, property_override_default_eq, applyWrites_append,
    device_writes]

theorem determine_device_other (c : String) (s : PropStore)
    (h₁ : pop_back c ≠ "rolex") (h₂ : pop_back c ≠ "riva") :
    determine_device (some c) s = s := by
  simp only [determine_device, ReadFileToString, Option.getD_some, if_neg h₁, if_neg h₂]
  split <;> rfl

theorem set_dalvik_heap_size_eq (totalram : Nat) (s : PropStore) :
    set_dalvik_heap_size totalram s
      = applyWrites (dalvik_writes (dalvik_heap_config totalram)) s := by
  simp only [set_dalvik_heap_size, property_override_default_eq, applyWrites_append,
    dalvik_writes, List.cons_append, List.nil_append]

theorem heapPropsAre_of_config (totalram : Nat) (s : PropStore) (cfg : HeapConfig)
    (h : dalvik_heap_config totalram = cfg)
    (h₁ : lastWrite (dalvik_writes cfg) "dalvik.vm.heapstartsize" = some cfg.heapstartsize)
    (h₂ : lastWrite (dalvik_writes cfg) "dalvik.vm.heapgrowthlimit" = some cfg.heapgrowthlimit)
    (h₃ : lastWrite (dalvik_writes cfg) "dalvik.vm.heapsize" = some cfg.heapsize)
    (h₄ : lastWrite (dalvik_writes cfg) "dalvik.vm.heaptargetutilization"
      = some cfg.heaptargetutilization)
    (h₅ : lastWrite (dalvik_writes cfg) "dalvik.vm.heapminfree" = some cfg.heapminfree)
    (h₆ : lastWrite (dalvik_writes cfg) "dalvik.vm.heapmaxfree" = some cfg.heapmaxfree) :
    HeapPropsAre (set_dalvik_heap_size totalram s) cfg := by
  rw [set_dalvik_heap_size_eq, h]
  exact ⟨applyWrites_of_lastWrite s h₁, applyWrites_of_lastWrite s h₂,
    applyWrites_of_lastWrite s h₃, applyWrites_of_lastWrite s h₄,
    applyWrites_of_lastWrite s h₅, applyWrites_of_lastWrite s h₆⟩

theorem variantPropsSet_of_writes (variant : variant_info) (name : String) (s : PropStore)
    (h : ∀ src ∈ ["odm.", "product.", "system.", "system_ext.", "vendor.", ""],
      lastWrite (device_writes variant name) ("ro.product." ++ src ++ "brand")
        = some variant.brand ∧
      lastWrite (device_writes variant name) ("ro.product." ++ src ++ "device")
        = some variant.device ∧
      lastWrite (device_writes variant name) ("ro.product." ++ src ++ "marketname")
        = some variant.marketname ∧
      lastWrite (device_writes variant name) ("ro.product." ++ src ++ "model")
        = some variant.model ∧
      lastWrite (device_writes variant name) ("ro." ++ src ++ "build.fingerprint")
        = some variant.build_fingerprint)
    (h₁ : lastWrite (device_writes variant name) "ro.bootimage.build.fingerprint"
      = some variant.build_fingerprint)
    (h₂ : lastWrite (device_writes variant name) "ro.build.description"
      = some variant.build_description)
    (h₃ : lastWrite (device_writes variant name) "vendor.usb.product_string" = some name)
    (h₄ : lastWrite (device_writes variant name) "bluetooth.device.default_name" = some name) :
    VariantPropsSet variant name (applyWrites (device_writes variant name) s) := by
  refine ⟨fun src hsrc => ?_, applyWrites_of_lastWrite s h₁, applyWrites_of_lastWrite s h₂,
    applyWrites_of_lastWrite s h₃, applyWrites_of_lastWrite s h₄⟩
  obtain ⟨a, b, c, d, e⟩ := h src hsrc
  exact ⟨applyWrites_of_lastWrite s a, applyWrites_of_lastWrite s b,
    applyWrites_of_lastWrite s c, applyWrites_of_lastWrite s d,
    applyWrites_of_lastWrite s e⟩

theorem pop_back_push (ch : Char) : pop_back ("rolex".push ch) = "rolex" := rfl

/-! ## Frames of the routines -/

theorem property_override_default_same (prop value : String) (s : PropStore) :
    property_override_default prop value s (c_str prop) = some (c_str value) := by
  unfold property_override_default
  rw [property_override_true]
  simp [system_property_update]

theorem property_override_default_other (prop value : String) (s : PropStore) (q : String)
    (h : q ≠ c_str prop) : property_override_default prop value s q = s q := by
  unfold property_override_default
  rw [property_override_true]
  simp [system_property_update, h]

theorem determine_device_empty (cf : Option String) (s : PropStore)
    (h : cf = none ∨ cf = some "") : determine_device cf s = s := by
  rcases h with rfl | rfl <;> rfl

theorem determine_device_frame (cf : Option String) (s : PropStore) (q : String)
    (hq : q ∉ device_names) : determine_device cf s q = s q := by
  cases cf with
  | none => rfl
  | some c =>
    by_cases h₁ : pop_back c = "rolex"
    · rw [determine_device_rolex c s h₁]
      exact applyWrites_frame_names s rfl (by decide) hq
    · by_cases h₂ : pop_back c = "riva"
      · rw [determine_device_riva c s h₂]
        exact applyWrites_frame_names s rfl (by decide) hq
      · rw [determine_device_other c s h₁ h₂]

theorem enable_gatekeeper_uid_offset_frame (ds : List String) (s sf : PropStore) (q : String)
    (h : enable_gatekeeper_uid_offset ds s = some sf) (hq : q ≠ "ro.gsid.image_running") :
    sf q = s q := by
  cases ds with
  | nil => simp [enable_gatekeeper_uid_offset] at h
  | cons d ds =>
    simp only [enable_gatekeeper_uid_offset] at h
    split at h
    · cases h
      exact property_override_default_other _ _ s q hq
    · cases h; rfl

theorem bootloader_loop_cons_some (line : String) (rest : List String) (s : PropStore)
    (i : Nat) (h : rfind line "BOOT." = some i) :
    bootloader_loop (line :: rest) s
      = property_override_default "ro.bootloader" (c_str (substr line i)) s := by
  simp only [bootloader_loop, h]

theorem bootloader_loop_cons_none (line : String) (rest : List String) (s : PropStore)
    (h : rfind line "BOOT." = none) :
    bootloader_loop (line :: rest) s = bootloader_loop rest s := by
  simp only [bootloader_loop, h]

theorem enable_gatekeeper_uid_offset_isSome (ds : List String) (s : PropStore)
    (h : ds ≠ []) : (enable_gatekeeper_uid_offset ds s).isSome = true := by
  cases ds with
  | nil => exact absurd rfl h
  | cons d ds =>
    by_cases hd : d = "soc/7864900.sdhci"
    · simp only [enable_gatekeeper_uid_offset, if_pos hd]; rfl
    · simp only [enable_gatekeeper_uid_offset, if_neg hd]; rfl

theorem vendor_load_properties_eq (b : Bool) (env : Env) (s : PropStore) :
    vendor_load_properties b env s
      = (enable_gatekeeper_uid_offset env.boot_devices
          (determine_device env.codename_file s)).map (fun s₁ =>
            let s₂ := set_avoid_gfxaccel_config env.totalram
              (set_dalvik_heap_size env.totalram (set_bootloader_prop env.images_file s₁))
            if b then force_adb_root s₂ else s₂) := by
  unfold vendor_load_properties
  dsimp only
  cases enable_gatekeeper_uid_offset env.boot_devices
    (determine_device env.codename_file s) <;> rfl

theorem vendor_load_properties_isSome (b : Bool) (env : Env) (s : PropStore)
    (h : env.boot_devices ≠ []) : (vendor_load_properties b env s).isSome = true := by
  rw [vendor_load_properties_eq, Option.isSome_map']
  exact enable_gatekeeper_uid_offset_isSome _ _ h

theorem bootloader_loop_frame (lines : List String) (s : PropStore) (q : String)
    (hq : q ≠ "ro.bootloader") : bootloader_loop lines s q = s q := by
  induction lines with
  | nil => rfl
  | cons line rest ih =>
    cases h : rfind line "BOOT." with
    | none => rw [bootloader_loop_cons_none line rest s h]; exact ih
    | some i =>
      rw [bootloader_loop_cons_some line rest s i h]
      exact property_override_default_other _ _ s q hq

theorem set_bootloader_prop_frame (f : Option String) (s : PropStore) (q : String)
    (hq : q ≠ "ro.bootloader") : set_bootloader_prop f s q = s q := by
  cases f with
  | none => rfl
  | some content => exact bootloader_loop_frame _ s q hq

theorem set_dalvik_heap_size_frame (t : Nat) (s : PropStore) (q : String)
    (hq : q ∉ dalvik_names) : set_dalvik_heap_size t s q = s q := by
  rw [set_dalvik_heap_size_eq]
  have hn : (dalvik_writes (dalvik_heap_config t)).map Prod.fst = dalvik_names := rfl
  exact applyWrites_frame_names s hn (fun n hn => hn) hq

theorem set_avoid_gfxaccel_config_frame (t : Nat) (s : PropStore) (q : String)
    (hq : q ≠ "ro.config.avoid_gfx_accel") : set_avoid_gfxaccel_config t s q = s q := by
  unfold set_avoid_gfxaccel_config
  split
  · exact property_override_default_other _ _ s q hq
  · rfl

theorem force_adb_root_frame (s : PropStore) (q : String) (hq : q ∉ adb_names) :
    force_adb_root s q = s q := by
  have h : force_adb_root s = applyWrites
      [(c_str "ro.secure", c_str "0"), (c_str "ro.adb.secure", c_str "0"),
       (c_str "ro.debuggable", c_str "1"), (c_str "persist.sys.usb.config", c_str "adb")] s := by
    simp only [force_adb_root, property_override_default_eq, applyWrites_append,
      List.cons_append, List.nil_append]
  rw [h]
  exact applyWrites_frame_names s rfl (by decide) hq

theorem dalvik_heapsize_256m_iff (t : Nat) :
    (dalvik_heap_config t).heapsize = "256m" ↔ t ≤ 3072 * 1024 * 1024 := by
  unfold dalvik_heap_config
  split_ifs with h₁ h₂ h₃
  · exact ⟨fun h => absurd h (by decide), fun h => by omega⟩
  · exact ⟨fun h => absurd h (by decide), fun h => by omega⟩
  · exact ⟨fun _ => by omega, fun _ => rfl⟩
  · exact ⟨fun _ => by omega, fun _ => rfl⟩

theorem set_dalvik_heap_size_heapsize (t : Nat) (s : PropStore) :
    set_dalvik_heap_size t s "dalvik.vm.heapsize" = some (dalvik_heap_config t).heapsize := by
  rw [set_dalvik_heap_size_eq]
  unfold dalvik_heap_config
  split_ifs <;> exact applyWrites_of_lastWrite s (by decide)

theorem string_lt_irrefl (l : List Char) : string_lt l l = false := by
  induction l with
  | nil => rfl
  | cons a l ih => simp [string_lt, ih]

theorem dalvik_heap_config_cases (t : Nat) :
    (5072 * 1024 * 1024 < t ∧
      dalvik_heap_config t = ⟨"16m", "256m", "512m", "0.5", "8m", "32m"⟩) ∨
    (3072 * 1024 * 1024 < t ∧ t ≤ 5072 * 1024 * 1024 ∧
      dalvik_heap_config t = ⟨"8m", "192m", "512m", "0.6", "8m", "16m"⟩) ∨
    (1024 * 1024 * 1024 < t ∧ t ≤ 3072 * 1024 * 1024 ∧
      dalvik_heap_config t = ⟨"8m", "128m", "256m", "0.75", "512k", "8m"⟩) ∨
    (t ≤ 1024 * 1024 * 1024 ∧
      dalvik_heap_config t = ⟨"8m", "96m", "256m", "0.75", "512k", "8m"⟩) := by
  unfold dalvik_heap_config
  split_ifs with h₁ h₂ h₃
  · exact Or.inl ⟨h₁, rfl⟩
  · exact Or.inr (Or.inl ⟨h₂, by omega, rfl⟩)
  · exact Or.inr (Or.inr (Or.inl ⟨h₃, by omega, rfl⟩))
  · exact Or.inr (Or.inr (Or.inr ⟨by omega, rfl⟩))

theorem heapBytes_set_dalvik_heap_size (t : Nat) (s : PropStore) (name : String)
    (h : name ∈ dalvik_names) :
    heapBytes (set_dalvik_heap_size t s) name
      = (lastWrite (dalvik_writes (dalvik_heap_config t)) name).bind sizeBytes := by
  unfold heapBytes
  rw [set_dalvik_heap_size_eq, applyWrites_apply]
  simp only [dalvik_names, List.mem_cons, List.mem_singleton, List.not_mem_nil, or_false] at h
  rcases h with rfl | rfl | rfl | rfl | rfl | rfl <;> rfl

/-! ## Strings: `c_str`, `rfind` and `getline` -/

theorem take_length_takeWhile (p : Char → Bool) (l : List Char) :
    l.take (l.takeWhile p).length = l.takeWhile p := by
  induction l with
  | nil => rfl
  | cons a l ih =>
    by_cases h : p a = true
    · simp [List.takeWhile_cons, h, ih]
    · simp [List.takeWhile_cons, h]

theorem c_str_data (s : String) : (c_str s).data = s.data.takeWhile (fun c => c != NUL) := by
  simp only [c_str, strlen]
  exact take_length_takeWhile _ _

theorem c_str_idem (s : String) : c_str (c_str s) = c_str s := by
  apply String.ext
  rw [c_str_data, c_str_data, List.takeWhile_idem]

theorem c_str_of_no_nul (s : String) (h : NUL ∉ s.data) : c_str s = s := by
  apply String.ext
  rw [c_str_data, List.takeWhile_eq_self_iff]
  intro x hx
  simp only [bne_iff_ne, ne_eq]
  intro hx'
  exact h (hx' ▸ hx)

theorem startsWith_iff (pat l : List Char) :
    startsWith pat l = true ↔ ∃ suf, l = pat ++ suf := by
  induction pat generalizing l with
  | nil => simp [startsWith]
  | cons p ps ih =>
    cases l with
    | nil => simp [startsWith]
    | cons c cs =>
      by_cases h : p = c
      · subst h
        simp [startsWith, ih]
      · have h' : ¬ c = p := fun e => h e.symm
        simp [startsWith, h, h']

theorem occursAt_zero (pat l : List Char) :
    occursAt pat l 0 ↔ startsWith pat l = true := by
  rw [startsWith_iff]
  constructor
  · rintro ⟨pre, suf, h, hlen⟩
    rw [List.length_eq_zero] at hlen
    subst hlen
    exact ⟨suf, h⟩
  · rintro ⟨suf, h⟩
    exact ⟨[], suf, h, rfl⟩

theorem occursAt_succ (pat : List Char) (c : Char) (cs : List Char) (j : Nat) :
    occursAt pat (c :: cs) (j + 1) ↔ occursAt pat cs j := by
  constructor
  · rintro ⟨pre, suf, h, hlen⟩
    cases pre with
    | nil => simp at hlen
    | cons a pre =>
      simp only [List.cons_append, List.cons.injEq] at h
      exact ⟨pre, suf, h.2, by simpa using hlen⟩
  · rintro ⟨pre, suf, h, hlen⟩
    exact ⟨c :: pre, suf, by simp [h], by simp [hlen]⟩

theorem occursAt_nil (pat : List Char) (j : Nat) (h : occursAt pat [] j) : j = 0 := by
  obtain ⟨pre, suf, h, hlen⟩ := h
  have : pre = [] := by
    cases pre with
    | nil => rfl
    | cons a pre => simp at h
  subst this
  exact hlen.symm

theorem rfindChars_spec (pat l : List Char) :
    (∀ i, rfindChars pat l = some i →
      occursAt pat l i ∧ ∀ j, occursAt pat l j → j ≤ i) ∧
    (rfindChars pat l = none → ∀ j, ¬ occursAt pat l j) := by
  induction l with
  | nil =>
    by_cases h : startsWith pat [] = true
    · have e : rfindChars pat [] = some 0 := by simp only [rfindChars, if_pos h]
      rw [e]
      refine ⟨fun i hi => ?_, fun hn => by cases hn⟩
      cases hi
      exact ⟨(occursAt_zero pat []).mpr h, fun j hj => Nat.le_of_eq (occursAt_nil pat j hj)⟩
    · have e : rfindChars pat [] = none := by simp only [rfindChars, if_neg h]
      rw [e]
      refine ⟨fun i hi => (by cases hi), fun _ j hj => ?_⟩
      have := occursAt_nil pat j hj
      subst this
      exact h ((occursAt_zero pat []).mp hj)
  | cons c cs ih =>
    cases hr : rfindChars pat cs with
    | some i' =>
      have e : rfindChars pat (c :: cs) = some (i' + 1) := by simp only [rfindChars, hr]
      rw [e]
      refine ⟨fun i hi => ?_, fun hn => by cases hn⟩
      cases hi
      obtain ⟨hocc, hmax⟩ := ih.1 i' hr
      refine ⟨(occursAt_succ pat c cs i').mpr hocc, fun j hj => ?_⟩
      cases j with
      | zero => exact Nat.zero_le _
      | succ j => exact Nat.succ_le_succ (hmax j ((occursAt_succ pat c cs j).mp hj))
    | none =>
      have hno := ih.2 hr
      by_cases h : startsWith pat (c :: cs) = true
      · have e : rfindChars pat (c :: cs) = some 0 := by
          simp only [rfindChars, hr, if_pos h]
        rw [e]
        refine ⟨fun i hi => ?_, fun hn => by cases hn⟩
        cases hi
        refine ⟨(occursAt_zero pat _).mpr h, fun j hj => ?_⟩
        cases j with
        | zero => exact Nat.le_refl _
        | succ j => exact absurd ((occursAt_succ pat c cs j).mp hj) (hno j)
      · have e : rfindChars pat (c :: cs) = none := by
          simp only [rfindChars, hr, if_neg h]
        rw [e]
        refine ⟨fun i hi => (by cases hi), fun _ j hj => ?_⟩
        cases j with
        | zero => exact h ((occursAt_zero pat _).mp hj)
        | succ j => exact hno j ((occursAt_succ pat c cs j).mp hj)

theorem getlinesAux_no_newline (cur rest : List Char) (h : '\n' ∉ cur) :
    ∀ l ∈ getlinesAux cur rest, '\n' ∉ l.data := by
  induction rest generalizing cur with
  | nil =>
    intro l hl
    by_cases hc : cur = []
    · simp [getlinesAux, hc] at hl
    · simp only [getlinesAux, if_neg hc, List.mem_singleton] at hl
      subst hl
      simpa using h
  | cons c rest ih =>
    intro l hl
    by_cases hc : c = '\n'
    · simp only [getlinesAux, if_pos hc, List.mem_cons] at hl
      rcases hl with rfl | hl
      · simpa using h
      · exact ih [] (by simp) l hl
    · simp only [getlinesAux, if_neg hc] at hl
      refine ih (c :: cur) ?_ l hl
      simp only [List.mem_cons, not_or]
      exact ⟨fun e => hc e.symm, h⟩

theorem terminated_nil : terminated [] = [] := by simp [terminated]

theorem terminated_newline (x r : List Char) :
    terminated (x ++ '\n' :: r) = x ++ '\n' :: terminated r := by
  cases r with
  | nil => simp [terminated]
  | cons a r =>
    have h1 : (x ++ '\n' :: a :: r).getLast? = (a :: r).getLast? := by
      cases h : (a :: r).getLast? with
      | none => simp at h
      | some v =>
        rw [List.getLast?_append, List.getLast?_cons_cons, h]
        rfl
    unfold terminated
    rw [h1]
    by_cases h : (a :: r).getLast? = some '\n'
    · simp [h]
    · simp [h]

theorem terminated_unfinished (cur : List Char) (hc : cur ≠ []) (h : '\n' ∉ cur) :
    terminated cur.reverse = cur.reverse ++ ['\n'] := by
  unfold terminated
  rw [if_neg]
  simp only [List.reverse_eq_nil_iff, List.getLast?_reverse, not_or]
  refine ⟨hc, ?_⟩
  cases cur with
  | nil => exact absurd rfl hc
  | cons a cur =>
    simp only [List.head?_cons, Option.some.injEq]
    intro e
    exact h (e ▸ List.mem_cons_self _ _)

theorem getlinesAux_flatMap (cur rest : List Char) (h : '\n' ∉ cur) :
    (getlinesAux cur rest).flatMap (fun l => l.data ++ ['\n'])
      = terminated (cur.reverse ++ rest) := by
  induction rest generalizing cur with
  | nil =>
    by_cases hc : cur = []
    · subst hc
      simp [getlinesAux, terminated_nil]
    · simp only [getlinesAux, if_neg hc, List.append_nil]
      rw [terminated_unfinished cur hc h]
      simp
  | cons c rest ih =>
    by_cases hc : c = '\n'
    · subst hc
      simp only [getlinesAux, if_true, List.flatMap_cons]
      rw [ih [] (by simp), terminated_newline]
      simp
    · simp only [getlinesAux, if_neg hc]
      rw [ih (c :: cur) (by
        simp only [List.mem_cons, not_or]
        exact ⟨fun e => hc e.symm, h⟩)]
      simp
theorem rfind_none_of_not_contains (line pat : String) (h : ¬ containsSub line pat) :
    rfind line pat = none := by
  cases hr : rfind line pat with
  | none => rfl
  | some i => exact absurd ⟨i, ((rfindChars_spec pat.data line.data).1 i hr).1⟩ h

theorem rfind_some_of_contains (line pat : String) (h : containsSub line pat) :
    ∃ i, rfind line pat = some i ∧ lastOccurrence line pat i := by
  cases hr : rfind line pat with
  | none =>
    obtain ⟨j, hj⟩ := h
    exact absurd hj ((rfindChars_spec pat.data line.data).2 hr j)
  | some i => exact ⟨i, rfl, (rfindChars_spec pat.data line.data).1 i hr⟩

theorem bootloader_loop_skip (pre rest : List String) (s : PropStore)
    (h : ∀ l ∈ pre, ¬ containsSub l "BOOT.") :
    bootloader_loop (pre ++ rest) s = bootloader_loop rest s := by
  induction pre with
  | nil => rfl
  | cons l pre ih =>
    rw [List.cons_append, bootloader_loop_cons_none l _ s
      (rfind_none_of_not_contains l "BOOT." (h l (List.mem_cons_self _ _)))]
    exact ih (fun l' hl' => h l' (List.mem_cons_of_mem _ hl'))

/-! ## Claims -/

/-- C1. Variant detection: when the codename file content with its final
character removed is "rolex" (respectively "riva"), `determine_device` leaves a
store that maps the 24 `ro.product.*` names, the 7 fingerprint names,
`ro.build.description` and the two product-name properties to the data of
`rolex_info` (respectively `riva_info`), whatever the initial store was; the
resulting `ro.product.device` is the detected codename. -/
theorem determine_device_sets_variant (s : PropStore) (c : String) :
    (pop_back c = "rolex" →
      VariantPropsSet rolex_info "Xiaomi Redmi 4A" (determine_device (some c) s) ∧
      determine_device (some c) s "ro.product.device" = some (pop_back c)) ∧
    (pop_back c = "riva" →
      VariantPropsSet riva_info "Xiaomi Redmi 5A" (determine_device (some c) s) ∧
      determine_device (some c) s "ro.product.device" = some (pop_back c)) ∧
    (rolex_info.brand = "Xiaomi" ∧ rolex_info.device = "rolex" ∧
      rolex_info.marketname = "" ∧ rolex_info.model = "Redmi 4A" ∧
      rolex_info.build_fingerprint
        = "Xiaomi/rolex/rolex:7.1.2/N2G47H/V10.2.3.0.NCCMIXM:user/release-keys" ∧
      rolex_info.build_description
        = "rolex-user 7.1.2 N2G47H V10.2.3.0.NCCMIXM release-keys") ∧
    (riva_info.brand = "Xiaomi" ∧ riva_info.device = "riva" ∧
      riva_info.marketname = "" ∧ riva_info.model = "Redmi 5A" ∧
      riva_info.build_fingerprint
        = "Xiaomi/riva/riva:7.1.2/N2G47H/V10.1.1.0.NCKMIFI:user/release-keys" ∧
      riva_info.build_description
        = "riva-user 7.1.2 N2G47H V10.1.1.0.NCKMIFI release-keys") := by
  refine ⟨fun h => ?_, fun h => ?_, ⟨rfl, rfl, rfl, rfl, rfl, rfl⟩,
    ⟨rfl, rfl, rfl, rfl, rfl, rfl⟩⟩
  · rw [determine_device_rolex c s h, h]
    exact ⟨variantPropsSet_of_writes _ _ s (by decide) (by decide) (by decide) (by decide)
      (by decide), applyWrites_of_lastWrite s (by decide)⟩
  · rw [determine_device_riva c s h, h]
    exact ⟨variantPropsSet_of_writes _ _ s (by decide) (by decide) (by decide) (by decide)
      (by decide), applyWrites_of_lastWrite s (by decide)⟩

/-- Witness for C1: the codename file holds "rolex" followed by a newline and
the store is initially empty. -/
theorem determine_device_sets_variant_witness :
    pop_back "rolex\n" = "rolex" ∧
    VariantPropsSet rolex_info "Xiaomi Redmi 4A" (determine_device (some "rolex\n") emptyStore) ∧
    determine_device (some "rolex\n") emptyStore "ro.product.device" = some "rolex" :=
  ⟨by decide,
    ((determine_device_sets_variant emptyStore "rolex\n").1 (by decide)).1,
    ((determine_device_sets_variant emptyStore "rolex\n").1 (by decide)).2⟩

/-- C2. Dalvik heap sizing: after `set_dalvik_heap_size` the six heap
properties are present with the values of the tier selected by the total RAM
`t` (thresholds 5072, 3072 and 1024 MiB, each tier including its upper bound),
whatever the initial store was. -/
theorem set_dalvik_heap_size_tiers (t : Nat) (s : PropStore) :
    (5072 * 1024 * 1024 < t →
      HeapPropsAre (set_dalvik_heap_size t s) ⟨"16m", "256m", "512m", "0.5", "8m", "32m"⟩) ∧
    (3072 * 1024 * 1024 < t → t ≤ 5072 * 1024 * 1024 →
      HeapPropsAre (set_dalvik_heap_size t s) ⟨"8m", "192m", "512m", "0.6", "8m", "16m"⟩) ∧
    (1024 * 1024 * 1024 < t → t ≤ 3072 * 1024 * 1024 →
      HeapPropsAre (set_dalvik_heap_size t s) ⟨"8m", "128m", "256m", "0.75", "512k", "8m"⟩) ∧
    (t ≤ 1024 * 1024 * 1024 →
      HeapPropsAre (set_dalvik_heap_size t s) ⟨"8m", "96m", "256m", "0.75", "512k", "8m"⟩) ∧
    set_dalvik_heap_size (3072 * 1024 * 1024) s "dalvik.vm.heapgrowthlimit" = some "128m" ∧
    set_dalvik_heap_size (1024 * 1024 * 1024) s "dalvik.vm.heapgrowthlimit" = some "96m" := by
  refine ⟨fun h => ?_, fun h h' => ?_, fun h h' => ?_, fun h => ?_, ?_, ?_⟩
  · apply heapPropsAre_of_config t s _ _ <;> first | decide | skip
    simp only [dalvik_heap_config, gt_iff_lt, if_pos h]
  · apply heapPropsAre_of_config t s _ _ <;> first | decide | skip
    simp only [dalvik_heap_config, gt_iff_lt, if_neg (Nat.not_lt.mpr h'), if_pos h]
  · apply heapPropsAre_of_config t s _ _ <;> first | decide | skip
    have h5 : ¬ 5072 * 1024 * 1024 < t := by omega
    simp only [dalvik_heap_config, gt_iff_lt, if_neg h5, if_neg (Nat.not_lt.mpr h'), if_pos h]
  · apply heapPropsAre_of_config t s _ _ <;> first | decide | skip
    have h5 : ¬ 5072 * 1024 * 1024 < t := by omega
    have h3 : ¬ 3072 * 1024 * 1024 < t := by omega
    simp only [dalvik_heap_config, gt_iff_lt, if_neg h5, if_neg h3, if_neg (Nat.not_lt.mpr h)]
  · rw [set_dalvik_heap_size_eq]
    exact applyWrites_of_lastWrite s (by decide)
  · rw [set_dalvik_heap_size_eq]
    exact applyWrites_of_lastWrite s (by decide)

/-- Witness for C2: one total-RAM value in each tier (6 GiB, 4 GiB, 2 GiB,
512 MiB), on the empty store. -/
theorem set_dalvik_heap_size_tiers_witness :
    HeapPropsAre (set_dalvik_heap_size (6144 * 1024 * 1024) emptyStore)
      ⟨"16m", "256m", "512m", "0.5", "8m", "32m"⟩ ∧
    HeapPropsAre (set_dalvik_heap_size (4096 * 1024 * 1024) emptyStore)
      ⟨"8m", "192m", "512m", "0.6", "8m", "16m"⟩ ∧
    HeapPropsAre (set_dalvik_heap_size (2048 * 1024 * 1024) emptyStore)
      ⟨"8m", "128m", "256m", "0.75", "512k", "8m"⟩ ∧
    HeapPropsAre (set_dalvik_heap_size (512 * 1024 * 1024) emptyStore)
      ⟨"8m", "96m", "256m", "0.75", "512k", "8m"⟩ :=
  ⟨(set_dalvik_heap_size_tiers (6144 * 1024 * 1024) emptyStore).1 (by decide),
    (set_dalvik_heap_size_tiers (4096 * 1024 * 1024) emptyStore).2.1 (by decide) (by decide),
    (set_dalvik_heap_size_tiers (2048 * 1024 * 1024) emptyStore).2.2.1 (by decide)
      (by decide),
    (set_dalvik_heap_size_tiers (512 * 1024 * 1024) emptyStore).2.2.2.1 (by decide)⟩

/-- C4. Missing files are ignored: with the codename file missing, unreadable
or empty `determine_device` returns the store unchanged, with the images file
not opened `set_bootloader_prop` returns the store unchanged, and in both cases
`vendor_load_properties` is exactly the run of the remaining routines, which
yields a store whenever the boot-device set is non-empty. -/
theorem missing_files_ignored (b : Bool) (env : Env) (s : PropStore) :
    determine_device none s = s ∧
    determine_device (some "") s = s ∧
    set_bootloader_prop none s = s ∧
    (env.codename_file = none ∨ env.codename_file = some "" →
      vendor_load_properties b env s
        = (enable_gatekeeper_uid_offset env.boot_devices s).map (fun s₁ =>
            let s₂ := set_avoid_gfxaccel_config env.totalram
              (set_dalvik_heap_size env.totalram (set_bootloader_prop env.images_file s₁))
            if b then force_adb_root s₂ else s₂)) ∧
    (env.images_file = none →
      vendor_load_properties b env s
        = (enable_gatekeeper_uid_offset env.boot_devices
            (determine_device env.codename_file s)).map (fun s₁ =>
            let s₂ := set_avoid_gfxaccel_config env.totalram
              (set_dalvik_heap_size env.totalram s₁)
            if b then force_adb_root s₂ else s₂)) ∧
    (env.boot_devices ≠ [] → (vendor_load_properties b env s).isSome = true) := by
  refine ⟨rfl, rfl, rfl, fun h => ?_, fun h => ?_,
    fun h => vendor_load_properties_isSome b env s h⟩
  · rw [vendor_load_properties_eq, determine_device_empty _ s h]
  · rw [vendor_load_properties_eq, h]
    rfl

/-- Witness for C4: no codename file, no images file, one boot device, 2 GiB. -/
theorem missing_files_ignored_witness :
    vendor_load_properties false ⟨none, ["soc/7824900.sdhci"], none, 2048 * 1024 * 1024⟩
        emptyStore
      = some (set_avoid_gfxaccel_config (2048 * 1024 * 1024)
          (set_dalvik_heap_size (2048 * 1024 * 1024) emptyStore)) ∧
    (vendor_load_properties false ⟨none, ["soc/7824900.sdhci"], none, 2048 * 1024 * 1024⟩
        emptyStore).isSome = true :=
  ⟨((missing_files_ignored false ⟨none, ["soc/7824900.sdhci"], none, 2048 * 1024 * 1024⟩
      emptyStore).2.2.2.1 (Or.inl rfl)).trans rfl,
    (missing_files_ignored false ⟨none, ["soc/7824900.sdhci"], none, 2048 * 1024 * 1024⟩
      emptyStore).2.2.2.2.2 (by decide)⟩

/-- C5 as stated fails: on the empty store, where "a" is absent, the default
override of "a" adds it, so the store is not left unchanged. -/
theorem property_override_default_absent_changes :
    emptyStore "a" = none ∧
    property_override_default "a" "b" emptyStore "a" = some "b" ∧
    property_override_default "a" "b" emptyStore ≠ emptyStore := by
  refine ⟨rfl, by decide, fun h => ?_⟩
  have h' := congrFun h "a"
  revert h'
  decide

/-- C5 amended. For a property `p` absent from the store, the override with `add`
left at its default (`true`) adds `p` with value `v` and changes no other
property; the store is left unchanged when `add` is `false`. -/
theorem property_override_absent (s : PropStore) (p v : String)
    (h : s (c_str p) = none) :
    property_override_default p v s (c_str p) = some (c_str v) ∧
    (∀ q, q ≠ c_str p → property_override_default p v s q = s q) ∧
    property_override p v false s = s := by
  refine ⟨property_override_default_same p v s,
    fun q hq => property_override_default_other p v s q hq, ?_⟩
  unfold property_override system_property_find
  rw [h]
  rfl

/-- Witness for C5 amended: property "a" on the empty store. -/
theorem property_override_absent_witness :
    emptyStore (c_str "a") = none ∧
    property_override_default "a" "b" emptyStore (c_str "a") = some (c_str "b") ∧
    property_override "a" "b" false emptyStore = emptyStore :=
  ⟨rfl, (property_override_absent emptyStore "a" "b" rfl).1,
    (property_override_absent emptyStore "a" "b" rfl).2.2⟩

/-- C6. The variant lookup is an exact comparison: `determine_device` leaves
the store unchanged unless the content with its final character removed is
exactly "rolex" or "riva"; "rolex", "Rolex\n", "rolex\r\n" and "santoni\n" leave
it unchanged, and "rolex" followed by any one character runs the rolex branch. -/
theorem determine_device_exact_match (s : PropStore) :
    (∀ c : String, pop_back c ≠ "rolex" → pop_back c ≠ "riva" →
      determine_device (some c) s = s) ∧
    (pop_back "rolex" = "role" ∧ determine_device (some "rolex") s = s) ∧
    determine_device (some "Rolex\n") s = s ∧
    determine_device (some "rolex\r\n") s = s ∧
    determine_device (some "santoni\n") s = s ∧
    (∀ ch : Char, determine_device (some ("rolex".push ch)) s
      = property_override_default "bluetooth.device.default_name" "Xiaomi Redmi 4A"
          (property_override_default "vendor.usb.product_string" "Xiaomi Redmi 4A"
            (set_variant_props rolex_info s))) := by
  refine ⟨fun c h₁ h₂ => determine_device_other c s h₁ h₂, ⟨by decide, ?_⟩, ?_, ?_, ?_, ?_⟩
  · exact determine_device_other _ s (by decide) (by decide)
  · exact determine_device_other _ s (by decide) (by decide)
  · exact determine_device_other _ s (by decide) (by decide)
  · exact determine_device_other _ s (by decide) (by decide)
  · intro ch
    have hc : "rolex".push ch ≠ "" := by
      intro h0
      have := congrArg String.length h0
      simp [String.length_push] at this
    simp only [determine_device, ReadFileToString, Option.getD_some, if_neg hc,
      pop_back_push, if_true]

/-- Witness for C6: the codename of another device leaves the empty store as it is. -/
theorem determine_device_exact_match_witness :
    determine_device (some "santoni\n") emptyStore = emptyStore :=
  (determine_device_exact_match emptyStore).1 "santoni\n" (by decide) (by decide)

/-- C7. Graphics-acceleration avoidance: `set_avoid_gfxaccel_config` overrides
`ro.config.avoid_gfx_accel` with "true" when the total RAM `t` is at most
3072 MiB and otherwise returns the store unchanged; in a run of
`vendor_load_properties` the final `dalvik.vm.heapsize` is "256m" exactly when
`t` is at most 3072 MiB, in which case `ro.config.avoid_gfx_accel` ends as
"true", and otherwise it keeps its initial value. -/
theorem avoid_gfxaccel_by_ram (t : Nat) (s : PropStore) :
    (t ≤ 3072 * 1024 * 1024 →
      set_avoid_gfxaccel_config t s
        = property_override_default "ro.config.avoid_gfx_accel" "true" s ∧
      set_avoid_gfxaccel_config t s "ro.config.avoid_gfx_accel" = some "true" ∧
      ∀ q, q ≠ "ro.config.avoid_gfx_accel" → set_avoid_gfxaccel_config t s q = s q) ∧
    (¬ t ≤ 3072 * 1024 * 1024 → set_avoid_gfxaccel_config t s = s) ∧
    (set_dalvik_heap_size t s "dalvik.vm.heapsize" = some "256m" ↔ t ≤ 3072 * 1024 * 1024) ∧
    (∀ (b : Bool) (env : Env), env.totalram = t →
      (env.boot_devices ≠ [] → (vendor_load_properties b env s).isSome = true) ∧
      ∀ sf, vendor_load_properties b env s = some sf →
        (sf "dalvik.vm.heapsize" = some "256m" ↔ t ≤ 3072 * 1024 * 1024) ∧
        (t ≤ 3072 * 1024 * 1024 → sf "ro.config.avoid_gfx_accel" = some "true") ∧
        (¬ t ≤ 3072 * 1024 * 1024 →
          sf "ro.config.avoid_gfx_accel" = s "ro.config.avoid_gfx_accel")) := by
  have hsize : ∀ s₀ : PropStore,
      (set_dalvik_heap_size t s₀ "dalvik.vm.heapsize" = some "256m"
        ↔ t ≤ 3072 * 1024 * 1024) := by
    intro s₀
    rw [set_dalvik_heap_size_heapsize, Option.some_inj]
    exact dalvik_heapsize_256m_iff t
  refine ⟨fun h => ?_, fun h => ?_, hsize s, ?_⟩
  · have e : set_avoid_gfxaccel_config t s
        = property_override_default "ro.config.avoid_gfx_accel" "true" s := by
      simp only [set_avoid_gfxaccel_config, if_pos h]
    refine ⟨e, ?_, fun q hq => set_avoid_gfxaccel_config_frame t s q hq⟩
    rw [e]
    exact property_override_default_same "ro.config.avoid_gfx_accel" "true" s
  · simp only [set_avoid_gfxaccel_config, if_neg h]
  · intro b env ht
    refine ⟨fun hne => vendor_load_properties_isSome b env s hne, fun sf hs' => ?_⟩
    · rw [vendor_load_properties_eq, ht] at hs'
      cases hg : enable_gatekeeper_uid_offset env.boot_devices
          (determine_device env.codename_file s) with
      | none => rw [hg] at hs'; cases hs'
      | some s₁ =>
        rw [hg] at hs'
        simp only [Option.map_some', Option.some.injEq] at hs'
        have hfin : ∀ q, q ∉ adb_names → sf q
            = set_avoid_gfxaccel_config t
                (set_dalvik_heap_size t (set_bootloader_prop env.images_file s₁)) q := by
          intro q hq
          rw [← hs']
          cases b
          · rfl
          · exact force_adb_root_frame _ q hq
        refine ⟨?_, fun h => ?_, fun h => ?_⟩
        · rw [hfin _ (by decide), set_avoid_gfxaccel_config_frame _ _ _ (by decide)]
          exact hsize _
        · rw [hfin _ (by decide)]
          simp only [set_avoid_gfxaccel_config, if_pos h]
          exact property_override_default_same "ro.config.avoid_gfx_accel" "true" _
        · rw [hfin _ (by decide)]
          simp only [set_avoid_gfxaccel_config, if_neg h]
          rw [set_dalvik_heap_size_frame _ _ _ (by decide),
            set_bootloader_prop_frame _ _ _ (by decide),
            enable_gatekeeper_uid_offset_frame _ _ _ _ hg (by decide),
            determine_device_frame _ _ _ (by decide)]

/-- Witness for C7: 2 GiB of RAM on the empty store. -/
theorem avoid_gfxaccel_by_ram_witness :
    set_avoid_gfxaccel_config (2048 * 1024 * 1024) emptyStore "ro.config.avoid_gfx_accel"
      = some "true" ∧
    set_avoid_gfxaccel_config (4096 * 1024 * 1024) emptyStore = emptyStore :=
  ⟨((avoid_gfxaccel_by_ram (2048 * 1024 * 1024) emptyStore).1 (by decide)).2.1,
    (avoid_gfxaccel_by_ram (4096 * 1024 * 1024) emptyStore).2.1 (by decide)⟩

/-- C8. Boot-device check: on a non-empty boot-device set
`enable_gatekeeper_uid_offset` overrides `ro.gsid.image_running` with "1" when
the first element is "soc/7864900.sdhci" and otherwise returns the store
unchanged; the first element of an ascending sequence is below all the others,
so a set holding "soc/7864900.sdhci" after a smaller element sets nothing; on
the empty set the routine has no defined result. -/
theorem gatekeeper_first_boot_device (s : PropStore) :
    (∀ (d : String) (ds : List String),
      (d = "soc/7864900.sdhci" →
        enable_gatekeeper_uid_offset (d :: ds) s
          = some (property_override_default "ro.gsid.image_running" "1" s)) ∧
      (d ≠ "soc/7864900.sdhci" → enable_gatekeeper_uid_offset (d :: ds) s = some s)) ∧
    (property_override_default "ro.gsid.image_running" "1" s "ro.gsid.image_running"
        = some "1" ∧
      ∀ q, q ≠ "ro.gsid.image_running" →
        property_override_default "ro.gsid.image_running" "1" s q = s q) ∧
    (∀ (d : String) (ds : List String),
      (d :: ds).Pairwise (fun a b => string_lt a.data b.data = true) →
      ∀ x ∈ ds, string_lt d.data x.data = true) ∧
    (∀ (d : String) (ds : List String),
      string_lt d.data "soc/7864900.sdhci".data = true → "soc/7864900.sdhci" ∈ ds →
      enable_gatekeeper_uid_offset (d :: ds) s = some s) ∧
    enable_gatekeeper_uid_offset [] s = none := by
  refine ⟨fun d ds => ⟨fun h => ?_, fun h => ?_⟩, ⟨?_, fun q hq => ?_⟩, ?_, ?_, rfl⟩
  · simp only [enable_gatekeeper_uid_offset, if_pos h]
  · simp only [enable_gatekeeper_uid_offset, if_neg h]
  · exact property_override_default_same "ro.gsid.image_running" "1" s
  · exact property_override_default_other _ _ s q hq
  · intro d ds h x hx
    exact (List.pairwise_cons.mp h).1 x hx
  · intro d ds hlt _
    have hne : d ≠ "soc/7864900.sdhci" := by
      intro h
      rw [h, string_lt_irrefl] at hlt
      cases hlt
    simp only [enable_gatekeeper_uid_offset, if_neg hne]

/-- Witness for C8: the set {"soc/7824900.sdhci", "soc/7864900.sdhci"}, whose
first element is not the one looked for. -/
theorem gatekeeper_first_boot_device_witness :
    string_lt "soc/7824900.sdhci".data "soc/7864900.sdhci".data = true ∧
    enable_gatekeeper_uid_offset ["soc/7824900.sdhci", "soc/7864900.sdhci"] emptyStore
      = some emptyStore ∧
    enable_gatekeeper_uid_offset ["soc/7864900.sdhci"] emptyStore
      = some (property_override_default "ro.gsid.image_running" "1" emptyStore) :=
  ⟨by decide,
    (gatekeeper_first_boot_device emptyStore).2.2.2.1 "soc/7824900.sdhci"
      ["soc/7864900.sdhci"] (by decide) (by decide),
    ((gatekeeper_first_boot_device emptyStore).1 "soc/7864900.sdhci" []).1 rfl⟩

/-- C9. Frame of the entry point in a build without `FORCE_ADB_ROOT`: a run of
`vendor_load_properties` yields a store whenever the boot-device set is
non-empty, and the store it yields agrees with the initial one on every
property outside the 43 listed names; in particular `ro.secure`,
`ro.adb.secure`, `ro.debuggable` and `persist.sys.usb.config` keep their
initial state. -/
theorem vendor_load_properties_frame (env : Env) (s : PropStore) :
    (env.boot_devices ≠ [] → (vendor_load_properties false env s).isSome = true) ∧
    (∀ sf, vendor_load_properties false env s = some sf →
      (∀ q, q ∉ written_names → sf q = s q) ∧
      sf "ro.secure" = s "ro.secure" ∧
      sf "ro.adb.secure" = s "ro.adb.secure" ∧
      sf "ro.debuggable" = s "ro.debuggable" ∧
      sf "persist.sys.usb.config" = s "persist.sys.usb.config") ∧
    written_names.length = 43 := by
  refine ⟨fun h => vendor_load_properties_isSome false env s h, fun sf hs' => ?_, rfl⟩
  have key : ∀ q, q ∉ written_names → sf q = s q := by
    intro q hq
    rw [vendor_load_properties_eq] at hs'
    cases hg : enable_gatekeeper_uid_offset env.boot_devices
        (determine_device env.codename_file s) with
    | none => rw [hg] at hs'; cases hs'
    | some s₁ =>
      rw [hg] at hs'
      simp only [Option.map_some', Option.some.injEq] at hs'
      have sub₁ : ∀ n ∈ device_names, n ∈ written_names := by decide
      have sub₂ : ∀ n ∈ dalvik_names, n ∈ written_names := by decide
      have h₁ : q ∉ device_names := fun h => hq (sub₁ q h)
      have h₂ : q ∉ dalvik_names := fun h => hq (sub₂ q h)
      have h₃ : q ≠ "ro.gsid.image_running" := fun h => hq (h ▸ by decide)
      have h₄ : q ≠ "ro.bootloader" := fun h => hq (h ▸ by decide)
      have h₅ : q ≠ "ro.config.avoid_gfx_accel" := fun h => hq (h ▸ by decide)
      rw [← hs']
      show set_avoid_gfxaccel_config env.totalram
        (set_dalvik_heap_size env.totalram (set_bootloader_prop env.images_file s₁)) q = s q
      rw [set_avoid_gfxaccel_config_frame _ _ _ h₅, set_dalvik_heap_size_frame _ _ _ h₂,
        set_bootloader_prop_frame _ _ _ h₄,
        enable_gatekeeper_uid_offset_frame _ _ _ _ hg h₃,
        determine_device_frame _ _ _ h₁]
  exact ⟨key, key _ (by decide), key _ (by decide), key _ (by decide), key _ (by decide)⟩

/-- Witness for C9: the Redmi 4A environment on the empty store. -/
theorem vendor_load_properties_frame_witness :
    (vendor_load_properties false
      ⟨some "rolex\n", ["soc/7824900.sdhci"], some "BOOT.BF.3.3-00214\n", 2048 * 1024 * 1024⟩
      emptyStore).isSome = true :=
  (vendor_load_properties_frame
    ⟨some "rolex\n", ["soc/7824900.sdhci"], some "BOOT.BF.3.3-00214\n", 2048 * 1024 * 1024⟩
    emptyStore).1 (by decide)

/-- C10. Every RAM tier yields a well-formed heap configuration: reading the
sizes set by `set_dalvik_heap_size` as byte counts, heapstartsize <=
heapgrowthlimit <= heapsize and heapminfree <= heapmaxfree <= heapgrowthlimit;
and each of the five sizes chosen for `t` is at most the one chosen for any
`t₂ >= t`. -/
theorem dalvik_heap_well_formed (t : Nat) (s : PropStore) :
    (sizeLe (heapBytes (set_dalvik_heap_size t s) "dalvik.vm.heapstartsize")
        (heapBytes (set_dalvik_heap_size t s) "dalvik.vm.heapgrowthlimit") = true ∧
      sizeLe (heapBytes (set_dalvik_heap_size t s) "dalvik.vm.heapgrowthlimit")
        (heapBytes (set_dalvik_heap_size t s) "dalvik.vm.heapsize") = true ∧
      sizeLe (heapBytes (set_dalvik_heap_size t s) "dalvik.vm.heapminfree")
        (heapBytes (set_dalvik_heap_size t s) "dalvik.vm.heapmaxfree") = true ∧
      sizeLe (heapBytes (set_dalvik_heap_size t s) "dalvik.vm.heapmaxfree")
        (heapBytes (set_dalvik_heap_size t s) "dalvik.vm.heapgrowthlimit") = true) ∧
    (∀ (t₂ : Nat) (s₂ : PropStore), t ≤ t₂ →
      ∀ name ∈ ["dalvik.vm.heapstartsize", "dalvik.vm.heapgrowthlimit", "dalvik.vm.heapsize",
          "dalvik.vm.heapminfree", "dalvik.vm.heapmaxfree"],
        sizeLe (heapBytes (set_dalvik_heap_size t s) name)
          (heapBytes (set_dalvik_heap_size t₂ s₂) name) = true) := by
  constructor
  · rw [heapBytes_set_dalvik_heap_size t s _ (by decide),
      heapBytes_set_dalvik_heap_size t s _ (by decide),
      heapBytes_set_dalvik_heap_size t s _ (by decide),
      heapBytes_set_dalvik_heap_size t s _ (by decide),
      heapBytes_set_dalvik_heap_size t s _ (by decide)]
    rcases dalvik_heap_config_cases t with ⟨_, e⟩ | ⟨_, _, e⟩ | ⟨_, _, e⟩ | ⟨_, e⟩ <;>
      rw [e] <;> decide
  · intro t₂ s₂ hle name hname
    have hmem : name ∈ dalvik_names := by
      revert name
      decide
    rw [heapBytes_set_dalvik_heap_size t s name hmem,
      heapBytes_set_dalvik_heap_size t₂ s₂ name hmem]
    revert name
    rcases dalvik_heap_config_cases t with ⟨h, e⟩ | ⟨h, h', e⟩ | ⟨h, h', e⟩ | ⟨h, e⟩ <;>
      rcases dalvik_heap_config_cases t₂ with ⟨k, e₂⟩ | ⟨k, k', e₂⟩ | ⟨k, k', e₂⟩ | ⟨k, e₂⟩ <;>
      first
        | omega
        | (rw [e, e₂]
           intro name hname _
           revert name
           decide)

/-- Witness for C10: 2 GiB against 4 GiB, for the heap growth limit. -/
theorem dalvik_heap_well_formed_witness :
    sizeLe (heapBytes (set_dalvik_heap_size (2048 * 1024 * 1024) emptyStore)
        "dalvik.vm.heapgrowthlimit")
      (heapBytes (set_dalvik_heap_size (4096 * 1024 * 1024) emptyStore)
        "dalvik.vm.heapgrowthlimit") = true :=
  (dalvik_heap_well_formed (2048 * 1024 * 1024) emptyStore).2 (4096 * 1024 * 1024) emptyStore
    (by decide) "dalvik.vm.heapgrowthlimit" (by decide)

/-- C3 as stated fails: the images file holds the single line "BOOT.", NUL, "X".
The line contains "BOOT." at position 0 and its suffix from there is the whole
line, but `ro.bootloader` is set to "BOOT." only: the value passed to
`property_override` ends at the first NUL. -/
theorem set_bootloader_prop_stops_at_nul :
    getlines "BOOT.\x00X" = ["BOOT.\x00X"] ∧
    rfind "BOOT.\x00X" "BOOT." = some 0 ∧
    substr "BOOT.\x00X" 0 = "BOOT.\x00X" ∧
    set_bootloader_prop (some "BOOT.\x00X") emptyStore "ro.bootloader" = some "BOOT." ∧
    set_bootloader_prop (some "BOOT.\x00X") emptyStore "ro.bootloader"
      ≠ some (substr "BOOT.\x00X" 0) := by
  decide

/-- C3 amended. `set_bootloader_prop` considers only the first line that
contains "BOOT." and sets `ro.bootloader` to the suffix of that line starting at
the last occurrence of "BOOT." in it, cut at the first NUL character if the
suffix has one (so it is the whole suffix when the line has no NUL); all other
properties, and the whole store when no line contains "BOOT.", are unchanged.
The lines are the pieces of the content between newline characters: no line
holds a newline, and the lines, each followed by a newline, make up the content
(with a final newline supplied when the content lacks it). -/
theorem set_bootloader_prop_first_line (content : String) (s : PropStore) :
    (∀ (pre : List String) (line : String) (post : List String),
      getlines content = pre ++ line :: post →
      (∀ l ∈ pre, ¬ containsSub l "BOOT.") → containsSub line "BOOT." →
      ∃ i, lastOccurrence line "BOOT." i ∧
        set_bootloader_prop (some content) s "ro.bootloader"
          = some (c_str (substr line i)) ∧
        (NUL ∉ line.data → c_str (substr line i) = substr line i) ∧
        ∀ q, q ≠ "ro.bootloader" → set_bootloader_prop (some content) s q = s q) ∧
    ((∀ l ∈ getlines content, ¬ containsSub l "BOOT.") →
      set_bootloader_prop (some content) s = s) ∧
    set_bootloader_prop (some "  CRM:  00:BOOT.BF.3.3-00214") s "ro.bootloader"
      = some "BOOT.BF.3.3-00214" ∧
    (∀ l ∈ getlines content, '\n' ∉ l.data) ∧
    (getlines content).flatMap (fun l => l.data ++ ['\n']) = terminated content.data := by
  refine ⟨fun pre line post hl hpre hline => ?_, fun h => ?_, ?_,
    getlinesAux_no_newline [] content.data (by simp),
    getlinesAux_flatMap [] content.data (by simp)⟩
  · obtain ⟨i, hi, hlast⟩ := rfind_some_of_contains line "BOOT." hline
    refine ⟨i, hlast, ?_, fun hnul => ?_,
      fun q hq => set_bootloader_prop_frame (some content) s q hq⟩
    · show bootloader_loop (getlines content) s "ro.bootloader" = _
      rw [hl, bootloader_loop_skip pre _ s hpre, bootloader_loop_cons_some line post s i hi]
      have := property_override_default_same "ro.bootloader" (c_str (substr line i)) s
      rw [c_str_idem] at this
      exact this
    · apply c_str_of_no_nul
      intro hmem
      exact hnul (List.mem_of_mem_drop hmem)
  · show bootloader_loop (getlines content) s = s
    have := bootloader_loop_skip (getlines content) [] s h
    rw [List.append_nil] at this
    exact this
  · have h := property_override_default_same "ro.bootloader"
      (c_str (substr "  CRM:  00:BOOT.BF.3.3-00214" 11)) s
    exact h

/-- Witness for C3 amended: a file of three lines whose second is the first
to contain "BOOT.". -/
theorem set_bootloader_prop_first_line_witness :
    ∃ i, lastOccurrence "00:BOOT.BF.3.3-00214" "BOOT." i ∧
      set_bootloader_prop (some "MPSS.JO\n00:BOOT.BF.3.3-00214\nBOOT.XY\n") emptyStore
          "ro.bootloader"
        = some (c_str (substr "00:BOOT.BF.3.3-00214" i)) ∧
      (NUL ∉ "00:BOOT.BF.3.3-00214".data →
        c_str (substr "00:BOOT.BF.3.3-00214" i) = substr "00:BOOT.BF.3.3-00214" i) ∧
      ∀ q, q ≠ "ro.bootloader" →
        set_bootloader_prop (some "MPSS.JO\n00:BOOT.BF.3.3-00214\nBOOT.XY\n") emptyStore q
          = emptyStore q :=
  (set_bootloader_prop_first_line "MPSS.JO\n00:BOOT.BF.3.3-00214\nBOOT.XY\n" emptyStore).1
    ["MPSS.JO"] "00:BOOT.BF.3.3-00214" ["BOOT.XY"] (by decide)
    (by
      intro l hl
      simp only [List.mem_singleton] at hl
      subst hl
      intro h
      obtain ⟨j, hj⟩ := h
      exact (rfindChars_spec "BOOT.".data "MPSS.JO".data).2 (by decide) j hj)
    ⟨3, ((rfindChars_spec "BOOT.".data "00:BOOT.BF.3.3-00214".data).1 3 (by decide)).1⟩

end InitRova
